import Mathlib

/-! Verification of `kext/log_kctl.c`.

A shallow embedding of the kernel-control log transport: the connection
registry (`log_kctl_connect`, `log_kctl_disconnect`), the delivery channel
guard (`enqueue_log`) and the message builder (`log_printf`).

Machine integers are natural numbers with explicit reduction modulo `2 ^ 32`
where the source computes in `unsigned int`.  Everything the source obtains
from outside the file (the value of the volatile `kctlunit` at a read, the
text a formatting pass produces, whether `_MALLOC` succeeds, the clock, the
result of `ctl_enqueuedata`) is supplied by an explicit environment, so that
every behaviour of those collaborators is covered by quantifying over it.
-/

namespace LogKctl

/-! ## Constants -/

/-- Value of `EISCONN` in Darwin's `<sys/errno.h>`. -/
def EISCONN : Nat := 56

/-- Width of `unsigned int` / `uint32_t` arithmetic. -/
def UINT_MOD : Nat := 2 ^ 32

/-- Largest value of `int`. -/
def INT_MAX : Nat := 2 ^ 31 - 1

/-- Constants declared in `kextlog.h`, which is not among the sources: the
sizes of the two record structures and the two flag bits.  They are taken as
parameters. -/
structure Layout where
  /-- The value of `sizeof(struct kextlog_msghdr)`, i.e. `sizeof(*msgp)`. -/
  sizeof_msghdr : Nat
  /-- The value of `sizeof(msg.buffer)`: capacity of the inline text buffer. -/
  sizeof_buffer : Nat
  /-- The value of `sizeof(struct kextlog_stackmsg)`, i.e. `sizeof(msg)`. -/
  sizeof_stackmsg : Nat
  /-- The bit `KEXTLOG_FLAG_MSG_DROPPED`. -/
  KEXTLOG_FLAG_MSG_DROPPED : Nat
  /-- The bit `KEXTLOG_FLAG_MSG_TRUNCATED`. -/
  KEXTLOG_FLAG_MSG_TRUNCATED : Nat
  deriving DecidableEq, Repr

/-- What any C declaration of the two structures and flags satisfies: the
stack record is a header followed by the inline buffer, all sizes are
representable in `int`, the buffer is not empty, and the two flags are
distinct non-zero bit sets. -/
def Layout.wf (L : Layout) : Prop :=
  0 < L.sizeof_buffer ∧
  L.sizeof_msghdr + L.sizeof_buffer ≤ L.sizeof_stackmsg ∧
  L.sizeof_stackmsg ≤ INT_MAX ∧
  L.KEXTLOG_FLAG_MSG_TRUNCATED ≠ 0 ∧
  L.KEXTLOG_FLAG_MSG_DROPPED ≠ 0 ∧
  L.KEXTLOG_FLAG_MSG_DROPPED &&& L.KEXTLOG_FLAG_MSG_TRUNCATED = 0

instance (L : Layout) : Decidable L.wf := by
  unfold Layout.wf; infer_instance

/-- A flag word `flags` carries the flag `f`. -/
def hasFlag (flags f : Nat) : Prop := flags &&& f = f

instance (flags f : Nat) : Decidable (hasFlag flags f) := by
  unfold hasFlag; infer_instance

/-! ## Primitives -/

/-- Semantics of `OSCompareAndSwap(oldValue, newValue, address)` on the word
`cur` stored at the address: whether the swap happened, and the word
afterwards. -/
def OSCompareAndSwap (oldValue newValue cur : Nat) : Bool × Nat :=
  if cur = oldValue then (true, newValue) else (false, cur)

/-- Semantics of `__builtin_uadd_overflow(a, b, &r)`: both operands are
converted to `unsigned int`; the result is whether the sum overflows, and the
wrapped sum stored in `r`. -/
def uadd_overflow (a b : Nat) : Bool × Nat :=
  (decide (UINT_MOD ≤ a % UINT_MOD + b % UINT_MOD),
   (a % UINT_MOD + b % UINT_MOD) % UINT_MOD)

/-- Semantics of `vsnprintf(buf, size, fmt, ap)` when formatting yields `text`
(bytes without the terminator): the bytes written to `buf` (at most
`size - 1` bytes of text and a trailing `0`), and the return value, the
number of characters that would have been printed if the size were
unlimited. -/
def vsnprintf (size : Nat) (text : List Nat) : List Nat × Nat :=
  (if size = 0 then [] else text.take (size - 1) ++ [0], text.length)

/-! ## Connection registry -/

/-- The file-scope variable `kctlunit`. -/
structure KctlState where
  kctlunit : Nat
  deriving DecidableEq, Repr

/-- Embedding of `log_kctl_connect`, with `sc_unit` the requested unit: the
state afterwards and the returned `errno_t`.  The assertions, the store
`*unitinfo = NULL` and the diagnostics do not touch `kctlunit` and are left
out. -/
def log_kctl_connect (st : KctlState) (sc_unit : Nat) : KctlState × Nat :=
  let r := OSCompareAndSwap 0 sc_unit st.kctlunit
  if r.1 then ({ kctlunit := r.2 }, 0) else ({ kctlunit := r.2 }, EISCONN)

/-- Embedding of `log_kctl_disconnect`: the state afterwards and the returned
`errno_t`, which is `0` on both branches of the source. -/
def log_kctl_disconnect (st : KctlState) (unit : Nat) : KctlState × Nat :=
  let r := OSCompareAndSwap unit 0 st.kctlunit
  if r.1 then ({ kctlunit := r.2 }, 0) else ({ kctlunit := r.2 }, 0)

/-! ## Records and events -/

/-- A `struct kextlog_msghdr` followed by its text buffer; `buffer` holds the
bytes that formatting wrote (text and terminator). -/
structure kextlog_msghdr where
  size : Nat
  level : Nat
  flags : Nat
  timestamp : Nat
  buffer : List Nat
  deriving DecidableEq, Repr

/-- The pointer `msgp`: either the address of the stack record `msg`, or the
region returned by the `_MALLOC` call of the given build pass. -/
inductive Msgp where
  | stack
  | heap (pass : Nat)
  deriving DecidableEq, Repr

/-- Calls that `log_printf` and `enqueue_log` make to their collaborators, in
program order. -/
inductive Event where
  /-- The call `LOG_ERR(...)`, a diagnostic of the module itself; the macro
  comes from `utils.h`, which is not among the sources, so the call is kept as
  an event of its own. -/
  | log_err
  /-- The call `_MALLOC(size, M_TEMP, M_NOWAIT)` and what it returned
  (`none` for `NULL`). -/
  | malloc (size : Nat) (res : Option Msgp)
  /-- The call `_FREE(p, M_TEMP)`. -/
  | free (p : Msgp)
  /-- The call `ctl_enqueuedata(kctlref, kctlunit, msgp, len, 0)` with the
  record as it is at the time of the call, and the `errno_t` it returned. -/
  | ctl_enqueuedata (msg : kextlog_msghdr) (len : Nat) (e : Nat)
  /-- The call `vprintf(fmt, ap)`: the message goes to the console. -/
  | vprintf
  deriving DecidableEq, Repr

/-! ## Delivery channel guard -/

/-- The function-scope statics of `enqueue_log`. -/
structure EnqueueState where
  last_dropped : Nat
  spin_lock : Nat
  deriving DecidableEq, Repr

/-- Values of the statics at module load. -/
def EnqueueState.init : EnqueueState := { last_dropped := 0, spin_lock := 0 }

/-- What one call of `enqueue_log` leaves behind. -/
structure EnqueueResult where
  /-- The statics afterwards. -/
  state : EnqueueState
  /-- The record `*msgp` afterwards (it is updated in place). -/
  msg : kextlog_msghdr
  /-- Calls made, in order. -/
  events : List Event
  /-- The returned `errno_t`. -/
  ret : Nat
  deriving DecidableEq, Repr

/-- Embedding of `enqueue_log(msgp, len)` run as one atomic step; `e` is what
`ctl_enqueuedata` returns.  With the lock taken at entry nothing in a
sequential run releases it, so the acquisition loop does not exit: `none`.
A failing `kassertf` is `none` as well. -/
def enqueue_log (L : Layout) (s : EnqueueState) (msg : kextlog_msghdr) (len : Nat)
    (e : Nat) : Option EnqueueResult :=
  let acq := OSCompareAndSwap 0 1 s.spin_lock
  if !acq.1 then none
  else
    let lock1 := acq.2
    let dropped1 := if s.last_dropped ≠ 0 then 0 else s.last_dropped
    let msg1 :=
      if s.last_dropped ≠ 0 then
        { msg with flags := msg.flags ||| L.KEXTLOG_FLAG_MSG_DROPPED }
      else msg
    let ev1 := [Event.ctl_enqueuedata msg1 len e]
    let dropped2 := if e ≠ 0 then 1 else dropped1
    let ev2 := if e ≠ 0 then ev1 ++ [Event.log_err] else ev1
    let rel := OSCompareAndSwap 1 0 lock1
    if !rel.1 then none
    else
      some { state := { last_dropped := dropped2, spin_lock := rel.2 },
             msg := msg1, events := ev2, ret := e }

/-- A send attempt: the record handed to `enqueue_log`, the length, and the
result the transport will give. -/
structure Attempt where
  msg : kextlog_msghdr
  len : Nat
  e : Nat
  deriving DecidableEq, Repr

/-- Run a sequence of `enqueue_log` calls one after the other; the result is
the final statics and, per attempt, what the call left behind. -/
def runSends (L : Layout) : EnqueueState → List Attempt → Option (EnqueueState × List EnqueueResult)
  | s, [] => some (s, [])
  | s, a :: rest =>
    match enqueue_log L s a.msg a.len a.e with
    | none => none
    | some r =>
      match runSends L r.state rest with
      | none => none
      | some (s', rs) => some (s', r :: rs)

/-! ## Message builder -/

/-- Everything `log_printf` obtains from outside during one call.  A build
pass is one execution of the code from the label `out_again`; passes are
numbered from `0`. -/
structure Env where
  /-- Value of the volatile `kctlunit` read by the attachment check of a pass. -/
  kctlunit : Nat → Nat
  /-- Text produced by the first formatting of a pass. -/
  fmt1 : Nat → List Nat
  /-- Text produced by the second formatting of a pass. -/
  fmt2 : Nat → List Nat
  /-- Whether `_MALLOC` succeeds in a pass. -/
  malloc : Nat → Bool
  /-- Value returned by `mach_absolute_time()`. -/
  mach_absolute_time : Nat
  /-- Value returned by `ctl_enqueuedata`. -/
  ctl_enqueuedata : Nat

/-- What a completed call of `log_printf` leaves behind. -/
structure Outcome where
  /-- The statics of `enqueue_log` afterwards. -/
  state : EnqueueState
  /-- Calls made, in order. -/
  trace : List Event
  /-- Number of times control went back to `out_again`. -/
  restarts : Nat
  deriving DecidableEq, Repr

/-- Result of one build pass. -/
inductive PassResult where
  /-- The pass ended in `goto out_again`, with the trace so far. -/
  | again (trace : List Event)
  /-- The pass ran to the end of the function (`none`: it hung in
  `enqueue_log`). -/
  | done (out : Option Outcome)

/-- Lines 198-201 of `log_printf`: release the record if it is not the stack
record. -/
def log_printf_release (msgp : Msgp) (tr : List Event) : List Event :=
  if msgp ≠ Msgp.stack then tr ++ [Event.free msgp] else tr

/-- Lines 186-201 of `log_printf`: stamp the header, hand the record to
`enqueue_log`, fall back to `vprintf` if that fails, release the record. -/
def log_printf_send (L : Layout) (env : Env) (level : Nat) (pass : Nat)
    (s : EnqueueState) (msgp : Msgp) (buffer : List Nat) (len msgsz flags : Nat)
    (tr : List Event) : Option Outcome :=
  let msg : kextlog_msghdr :=
    { size := (len + 1) % UINT_MOD, level := level, flags := flags,
      timestamp := env.mach_absolute_time, buffer := buffer }
  match enqueue_log L s msg msgsz env.ctl_enqueuedata with
  | none => none
  | some r =>
    let tr1 := tr ++ r.events
    let tr2 := if r.ret ≠ 0 then tr1 ++ [Event.vprintf] else tr1
    some { state := r.state, trace := log_printf_release msgp tr2, restarts := pass }

/-- One pass of `log_printf` from the label `out_again` (lines 140-201);
`flags` is the local variable of that name, `tr` the calls made so far. -/
def log_printf_pass (L : Layout) (env : Env) (level : Nat) (pass : Nat)
    (flags : Nat) (s : EnqueueState) (tr : List Event) : PassResult :=
  if env.kctlunit pass = 0 then
    PassResult.done
      (some { state := s, trace := log_printf_release Msgp.stack (tr ++ [Event.vprintf]),
              restarts := pass })
  else
    let f1 := vsnprintf L.sizeof_buffer (env.fmt1 pass)
    let len := f1.2
    let a1 := uadd_overflow L.sizeof_msghdr len
    let a2 := uadd_overflow a1.2 1
    if a1.1 || a2.1 then
      PassResult.done
        (log_printf_send L env level pass s Msgp.stack f1.1 len L.sizeof_stackmsg
          (flags ||| L.KEXTLOG_FLAG_MSG_TRUNCATED) (tr ++ [Event.log_err]))
    else
      let msgsz := a2.2
      if L.sizeof_buffer ≤ len then
        if env.malloc pass then
          let tr1 := tr ++ [Event.malloc msgsz (some (Msgp.heap pass))]
          let f2 := vsnprintf (len + 1) (env.fmt2 pass)
          let len2 := f2.2
          if len < len2 then
            PassResult.again (tr1 ++ [Event.free (Msgp.heap pass)])
          else
            PassResult.done
              (log_printf_send L env level pass s (Msgp.heap pass) f2.1 len2 msgsz flags tr1)
        else
          PassResult.done
            (log_printf_send L env level pass s Msgp.stack f1.1 len L.sizeof_stackmsg
              (flags ||| L.KEXTLOG_FLAG_MSG_TRUNCATED) (tr ++ [Event.malloc msgsz none]))
      else
        PassResult.done
          (log_printf_send L env level pass s Msgp.stack f1.1 len msgsz flags tr)

/-- The loop formed by `goto out_again`: run passes until one runs to the end
of the function.  `fuel` bounds the number of passes; `none` when it is
exhausted. -/
def log_printf_from (L : Layout) (env : Env) (level : Nat) :
    Nat → Nat → Nat → EnqueueState → List Event → Option Outcome
  | 0, _, _, _, _ => none
  | fuel + 1, pass, flags, s, tr =>
    match log_printf_pass L env level pass flags s tr with
    | PassResult.again tr1 => log_printf_from L env level fuel (pass + 1) flags s tr1
    | PassResult.done out => out

/-- Embedding of `log_printf(level, fmt, ...)`: `flags` starts at `0`, the
first pass is pass `0`. -/
def log_printf (L : Layout) (fuel : Nat) (env : Env) (s : EnqueueState) (level : Nat) :
    Option Outcome :=
  log_printf_from L env level fuel 0 0 s []

/-! ## Observations on traces -/

/-- The records handed to the transport with their lengths, in order. -/
def enqueued : List Event → List (kextlog_msghdr × Nat)
  | [] => []
  | Event.ctl_enqueuedata msg len _ :: rest => (msg, len) :: enqueued rest
  | _ :: rest => enqueued rest

/-- Number of `vprintf(fmt, ap)` calls. -/
def vprintfCount (tr : List Event) : Nat := tr.count Event.vprintf

/-- Number of `_MALLOC` calls, successful or not. -/
def mallocCount : List Event → Nat
  | [] => 0
  | Event.malloc _ _ :: rest => mallocCount rest + 1
  | _ :: rest => mallocCount rest

/-- Number of `_MALLOC` calls that returned the region `p`. -/
def allocCount (p : Msgp) : List Event → Nat
  | [] => 0
  | Event.malloc _ (some q) :: rest => (if q = p then 1 else 0) + allocCount p rest
  | _ :: rest => allocCount p rest

/-- Number of `_FREE` calls on `p`. -/
def freeCount (p : Msgp) (tr : List Event) : Nat := tr.count (Event.free p)

/-- The overflow test of lines 156-158 for a first-pass length `len`. -/
def sizeOverflows (L : Layout) (len : Nat) : Bool :=
  (uadd_overflow L.sizeof_msghdr len).1 ||
    (uadd_overflow (uadd_overflow L.sizeof_msghdr len).2 1).1

/-- The value left in `msgsz` by lines 156-158 for a first-pass length `len`. -/
def msgszOf (L : Layout) (len : Nat) : Nat :=
  (uadd_overflow (uadd_overflow L.sizeof_msghdr len).2 1).2

/-- A pass ends in `goto out_again`: an observer is attached, the size does
not overflow, the text does not fit the inline buffer, the allocation
succeeds and the second formatting reports a longer text than the first. -/
def races (L : Layout) (env : Env) (pass : Nat) : Bool :=
  decide (env.kctlunit pass ≠ 0) &&
  !sizeOverflows L (env.fmt1 pass).length &&
  decide (L.sizeof_buffer ≤ (env.fmt1 pass).length) &&
  env.malloc pass &&
  decide ((env.fmt1 pass).length < (env.fmt2 pass).length)

/-- Calls made by passes `0 .. k-1` when each of them races: an allocation
and its release per pass. -/
def raceTrace (L : Layout) (env : Env) : Nat → List Event
  | 0 => []
  | k + 1 =>
    raceTrace L env k ++
      [Event.malloc (msgszOf L (env.fmt1 k).length) (some (Msgp.heap k)),
       Event.free (Msgp.heap k)]

/-- A concrete layout used in examples: 24-byte header, 8-byte inline
buffer. -/
def exLayout : Layout :=
  { sizeof_msghdr := 24, sizeof_buffer := 8, sizeof_stackmsg := 32,
    KEXTLOG_FLAG_MSG_DROPPED := 1, KEXTLOG_FLAG_MSG_TRUNCATED := 2 }

/-! ## Definitions used in the statements and examples -/

/-- Of two connect results, exactly one is success and the other is the
already-connected error. -/
def exactlyOneConnected (r1 r2 : Nat) : Prop :=
  (r1 = 0 ∧ r2 = EISCONN) ∨ (r1 = EISCONN ∧ r2 = 0)

instance (r1 r2 : Nat) : Decidable (exactlyOneConnected r1 r2) := by
  unfold exactlyOneConnected; infer_instance

/-- Run two connect callbacks one after the other from the unattached state;
the two returned values, in the order of the calls. -/
def connectTwice (first second : Nat) : Nat × Nat :=
  let a := log_kctl_connect { kctlunit := 0 } first
  let b := log_kctl_connect a.1 second
  (a.2, b.2)

/-- Run two connect callbacks one after the other from the unattached state;
the registry afterwards. -/
def connectTwiceState (first second : Nat) : KctlState :=
  (log_kctl_connect (log_kctl_connect { kctlunit := 0 } first).1 second).1

/-- The record as the transport sees it when `log_printf` sends from a state
`s` of the guard: the header stamped by lines 186-189, with `DROPPED` folded
in when the drop memory is set. -/
def sentMsg (L : Layout) (env : Env) (level : Nat) (s : EnqueueState)
    (buffer : List Nat) (len flags : Nat) : kextlog_msghdr :=
  { size := (len + 1) % UINT_MOD, level := level,
    flags := if s.last_dropped ≠ 0 then flags ||| L.KEXTLOG_FLAG_MSG_DROPPED else flags,
    timestamp := env.mach_absolute_time, buffer := buffer }

/-- The calls in the trace once lines 186-201 have run after `tr`. -/
def sendTrace (L : Layout) (env : Env) (level : Nat) (s : EnqueueState) (msgp : Msgp)
    (buffer : List Nat) (len msgsz flags : Nat) (tr : List Event) : List Event :=
  log_printf_release msgp
    (tr ++ Event.ctl_enqueuedata (sentMsg L env level s buffer len flags) msgsz
        env.ctl_enqueuedata ::
      (if env.ctl_enqueuedata ≠ 0 then [Event.log_err, Event.vprintf] else []))

/-- The shapes of the calls made before the send in a pass that reaches it:
nothing (the text fits), a diagnostic (size overflow), a failed allocation,
or a successful allocation whose region then is the record. -/
def sendShape (pass : Nat) (msgp : Msgp) (pre : List Event) : Prop :=
  (msgp = Msgp.stack ∧
      (pre = [] ∨ pre = [Event.log_err] ∨ ∃ sz, pre = [Event.malloc sz none])) ∨
  (msgp = Msgp.heap pass ∧ ∃ sz, pre = [Event.malloc sz (some (Msgp.heap pass))])

/-- The text `hello`. -/
def exHello : List Nat := [104, 101, 108, 108, 111]

/-- A text of ten characters, longer than the inline buffer of `exLayout`. -/
def exTen : List Nat := [97, 98, 99, 100, 101, 102, 103, 104, 105, 106]

/-- An observer with unit 1 is attached and the message is `hello`. -/
def exEnvHello : Env :=
  { kctlunit := fun _ => 1, fmt1 := fun _ => exHello, fmt2 := fun _ => exHello,
    malloc := fun _ => true, mach_absolute_time := 1000, ctl_enqueuedata := 0 }

/-- An observer is attached, the message has ten characters and `_MALLOC`
returns `NULL`. -/
def exEnvNoMem : Env :=
  { kctlunit := fun _ => 1, fmt1 := fun _ => exTen, fmt2 := fun _ => exTen,
    malloc := fun _ => false, mach_absolute_time := 1000, ctl_enqueuedata := 0 }

/-- An observer is attached, the first formatting gives ten characters, the
allocation succeeds and the second formatting gives nine characters. -/
def exEnvShrink : Env :=
  { kctlunit := fun _ => 1, fmt1 := fun _ => exTen, fmt2 := fun _ => exTen.take 9,
    malloc := fun _ => true, mach_absolute_time := 1000, ctl_enqueuedata := 0 }

/-- An observer is attached, the message has ten characters, the allocation
succeeds, and the second formatting is one character longer than the first in
passes 0 and 1 and equal to it from pass 2 on. -/
def exEnvTwoRaces : Env :=
  { kctlunit := fun _ => 1, fmt1 := fun _ => exTen,
    fmt2 := fun i => if i < 2 then exTen ++ [107] else exTen,
    malloc := fun _ => true, mach_absolute_time := 1000, ctl_enqueuedata := 0 }

/-- An observer is attached, the message has ten characters, the allocation
succeeds, the second formatting is one character longer than the first in
pass 0 only, and the transport rejects the record. -/
def exEnvRaceFail : Env :=
  { kctlunit := fun _ => 1, fmt1 := fun _ => exTen,
    fmt2 := fun i => if i < 1 then exTen ++ [107] else exTen,
    malloc := fun _ => true, mach_absolute_time := 1000, ctl_enqueuedata := 55 }

/-- What the call with `exEnvRaceFail` at level 2 leaves behind. -/
def exOutRaceFail : Outcome :=
  { state := { last_dropped := 1, spin_lock := 0 },
    trace :=
      [Event.malloc 35 (some (Msgp.heap 0)), Event.free (Msgp.heap 0),
       Event.malloc 35 (some (Msgp.heap 1)),
       Event.ctl_enqueuedata
         { size := 11, level := 2, flags := 0, timestamp := 1000,
           buffer := [97, 98, 99, 100, 101, 102, 103, 104, 105, 106, 0] } 35 55,
       Event.log_err, Event.vprintf, Event.free (Msgp.heap 1)],
    restarts := 1 }

/-! ## Basic facts -/

theorem or_and_self_flag (a d : Nat) : (a ||| d) &&& d = d := by
  apply Nat.eq_of_testBit_eq
  intro i
  simp only [Nat.testBit_and, Nat.testBit_or]
  cases a.testBit i <;> cases d.testBit i <;> rfl

theorem hasFlag_or (a d : Nat) : hasFlag (a ||| d) d := or_and_self_flag a d

theorem enqueue_log_unlocked (L : Layout) (s : EnqueueState) (msg : kextlog_msghdr)
    (len e : Nat) (hs : s.spin_lock = 0) :
    ∃ r, enqueue_log L s msg len e = some r ∧
      r.state = { last_dropped := if e ≠ 0 then 1 else 0, spin_lock := 0 } ∧
      r.msg = (if s.last_dropped ≠ 0 then
                { msg with flags := msg.flags ||| L.KEXTLOG_FLAG_MSG_DROPPED }
              else msg) ∧
      r.events = Event.ctl_enqueuedata r.msg len e :: (if e ≠ 0 then [Event.log_err] else []) ∧
      r.ret = e := by
  unfold enqueue_log OSCompareAndSwap
  by_cases hd : s.last_dropped = 0 <;> by_cases he : e = 0 <;> simp [hs, hd, he]

/-- Invariant of a run of sends from a state with the lock free: the record
of attempt `i` carries `DROPPED` exactly when the attempt before it failed,
where "the attempt before" the first one is summarised by `last_dropped`. -/
theorem runSends_spec (L : Layout) (as : List Attempt) :
    ∀ s : EnqueueState, s.spin_lock = 0 →
      (∀ a ∈ as, ¬ hasFlag a.msg.flags L.KEXTLOG_FLAG_MSG_DROPPED) →
      ∃ s1 rs, runSends L s as = some (s1, rs) ∧ rs.length = as.length ∧
        s1.spin_lock = 0 ∧
        ∀ i r, rs[i]? = some r →
          (∃ a, as[i]? = some a ∧ r.ret = a.e ∧
            enqueued r.events = [(r.msg, a.len)]) ∧
          (hasFlag r.msg.flags L.KEXTLOG_FLAG_MSG_DROPPED ↔
            (i = 0 ∧ s.last_dropped ≠ 0) ∨
            (0 < i ∧ ∃ a, as[i - 1]? = some a ∧ a.e ≠ 0)) := by
  induction as with
  | nil =>
    intro s hs _
    exact ⟨s, [], rfl, rfl, hs, by simp⟩
  | cons a rest ih =>
    intro s hs hflags
    have ha : ¬ hasFlag a.msg.flags L.KEXTLOG_FLAG_MSG_DROPPED :=
      hflags a (List.mem_cons_self _ _)
    have hrest : ∀ b ∈ rest, ¬ hasFlag b.msg.flags L.KEXTLOG_FLAG_MSG_DROPPED :=
      fun b hb => hflags b (List.mem_cons_of_mem _ hb)
    obtain ⟨r0, hstep, hst, hmsg, hev, hret⟩ := enqueue_log_unlocked L s a.msg a.len a.e hs
    obtain ⟨s1, rs, hrun, hlen, hlock, hall⟩ := ih r0.state (by rw [hst]) hrest
    refine ⟨s1, r0 :: rs, ?_, ?_, hlock, ?_⟩
    · simp only [runSends, hstep, hrun]
    · simp [hlen]
    · intro i r hir
      cases i with
      | zero =>
        simp only [List.getElem?_cons_zero, Option.some.injEq] at hir
        subst hir
        refine ⟨⟨a, by simp, hret, ?_⟩, ?_⟩
        · rw [hev]
          by_cases he : a.e = 0 <;> simp [enqueued, he]
        · rw [hmsg]
          by_cases hd : s.last_dropped = 0
          · simpa [hd] using ha
          · simpa [hd] using hasFlag_or a.msg.flags L.KEXTLOG_FLAG_MSG_DROPPED
      | succ j =>
        simp only [List.getElem?_cons_succ] at hir
        obtain ⟨h1, h2⟩ := hall j r hir
        refine ⟨by simpa using h1, ?_⟩
        rw [h2, hst]
        cases j with
        | zero => by_cases he : a.e = 0 <;> simp [he]
        | succ m => simp

/-! ## Facts about traces -/

theorem enqueued_append (a b : List Event) : enqueued (a ++ b) = enqueued a ++ enqueued b := by
  induction a with
  | nil => rfl
  | cons x xs ih => cases x <;> simp [enqueued, ih]

theorem mallocCount_append (a b : List Event) :
    mallocCount (a ++ b) = mallocCount a + mallocCount b := by
  induction a with
  | nil => simp [mallocCount]
  | cons x xs ih => cases x <;> simp [mallocCount, ih]; omega

theorem allocCount_append (p : Msgp) (a b : List Event) :
    allocCount p (a ++ b) = allocCount p a + allocCount p b := by
  induction a with
  | nil => simp [allocCount]
  | cons x xs ih =>
    cases x with
    | malloc sz res =>
      cases res
      · simp [allocCount, ih]
      · simp [allocCount, ih]; omega
    | _ => simp [allocCount, ih]

theorem freeCount_append (p : Msgp) (a b : List Event) :
    freeCount p (a ++ b) = freeCount p a + freeCount p b := by
  simp [freeCount, List.count_append]

theorem enqueued_raceTrace (L : Layout) (env : Env) (k : Nat) :
    enqueued (raceTrace L env k) = [] := by
  induction k with
  | zero => rfl
  | succ k ih => simp [raceTrace, enqueued_append, ih, enqueued]

theorem mallocCount_raceTrace (L : Layout) (env : Env) (k : Nat) :
    mallocCount (raceTrace L env k) = k := by
  induction k with
  | zero => rfl
  | succ k ih => simp [raceTrace, mallocCount_append, ih, mallocCount]

theorem allocCount_raceTrace (L : Layout) (env : Env) (p : Msgp) (k : Nat) :
    allocCount p (raceTrace L env k) =
      (match p with
       | Msgp.stack => 0
       | Msgp.heap i => if i < k then 1 else 0) := by
  induction k with
  | zero => cases p <;> simp [raceTrace, allocCount]
  | succ k ih =>
    simp only [raceTrace, allocCount_append, ih]
    cases p with
    | stack => simp [allocCount]
    | heap i =>
      simp only [allocCount, Msgp.heap.injEq]
      by_cases h1 : i < k
      · have h2 : ¬ k = i := by omega
        have h3 : i < k + 1 := by omega
        simp [h1, h2, h3]
      · by_cases h2 : k = i
        · have h3 : i < k + 1 := by omega
          simp [h1, h2, h3]
        · have h3 : ¬ i < k + 1 := by omega
          simp [h1, h2, h3]

theorem freeCount_raceTrace (L : Layout) (env : Env) (p : Msgp) (k : Nat) :
    freeCount p (raceTrace L env k) = allocCount p (raceTrace L env k) := by
  induction k with
  | zero => simp [raceTrace, allocCount, freeCount]
  | succ k ih =>
    simp only [raceTrace, allocCount_append, freeCount_append, ih]
    cases p with
    | stack => simp [allocCount, freeCount]
    | heap i =>
      by_cases h : k = i
      · simp [allocCount, freeCount, h]
      · have h2 : ¬ i = k := fun e => h e.symm
        simp [allocCount, freeCount, h, h2]

/-! ## Facts about the size computation -/

theorem no_overflow (L : Layout) (len : Nat) (h : L.sizeof_msghdr + len + 1 < UINT_MOD) :
    sizeOverflows L len = false ∧ msgszOf L len = L.sizeof_msghdr + len + 1 := by
  have h1 : L.sizeof_msghdr % UINT_MOD = L.sizeof_msghdr := Nat.mod_eq_of_lt (by omega)
  have h2 : len % UINT_MOD = len := Nat.mod_eq_of_lt (by omega)
  have h3 : (L.sizeof_msghdr + len) % UINT_MOD = L.sizeof_msghdr + len :=
    Nat.mod_eq_of_lt (by omega)
  have h4 : 1 % UINT_MOD = 1 := by decide
  have h5 : (L.sizeof_msghdr + len + 1) % UINT_MOD = L.sizeof_msghdr + len + 1 :=
    Nat.mod_eq_of_lt h
  constructor
  · simp only [sizeOverflows, uadd_overflow, h1, h2, h3, h4, Bool.or_eq_false_iff,
      decide_eq_false_iff_not, Nat.mod_mod]
    constructor <;> omega
  · simp only [msgszOf, uadd_overflow, h1, h2, h3, h4, h5, Nat.mod_mod]

theorem wf_no_overflow (L : Layout) (hwf : L.wf) (len : Nat) (h : len ≤ INT_MAX) :
    L.sizeof_msghdr + len + 1 < UINT_MOD := by
  obtain ⟨_, h2, h3, _⟩ := hwf
  have : INT_MAX + INT_MAX + 1 < UINT_MOD := by decide
  omega

/-! ## Facts about one pass and about the restart loop -/

theorem log_printf_send_unlocked (L : Layout) (env : Env) (level pass : Nat)
    (s : EnqueueState) (msgp : Msgp) (buffer : List Nat) (len msgsz flags : Nat)
    (tr : List Event) (hs : s.spin_lock = 0) :
    log_printf_send L env level pass s msgp buffer len msgsz flags tr =
      some { state := { last_dropped := if env.ctl_enqueuedata ≠ 0 then 1 else 0,
                        spin_lock := 0 },
             trace := sendTrace L env level s msgp buffer len msgsz flags tr,
             restarts := pass } := by
  obtain ⟨r, hr, hst, hmsg, hev, hret⟩ :=
    enqueue_log_unlocked L s
      { size := (len + 1) % UINT_MOD, level := level, flags := flags,
        timestamp := env.mach_absolute_time, buffer := buffer }
      msgsz env.ctl_enqueuedata hs
  simp only [log_printf_send, hr, hst, hev, hret, sendTrace, sentMsg]
  rw [hmsg]
  by_cases he : env.ctl_enqueuedata = 0 <;> by_cases hd : s.last_dropped = 0 <;>
    simp [he, hd]

theorem enqueue_log_some_unlocked (L : Layout) (s : EnqueueState) (msg : kextlog_msghdr)
    (len e : Nat) (r : EnqueueResult) (h : enqueue_log L s msg len e = some r) :
    s.spin_lock = 0 := by
  by_contra hs
  simp [enqueue_log, OSCompareAndSwap, hs] at h

theorem log_printf_send_some (L : Layout) (env : Env) (level pass : Nat)
    (s : EnqueueState) (msgp : Msgp) (buffer : List Nat) (len msgsz flags : Nat)
    (tr : List Event) (out : Outcome)
    (h : log_printf_send L env level pass s msgp buffer len msgsz flags tr = some out) :
    out.restarts = pass ∧
      out.trace = sendTrace L env level s msgp buffer len msgsz flags tr := by
  have hs : s.spin_lock = 0 := by
    by_contra hs
    simp [log_printf_send, enqueue_log, OSCompareAndSwap, hs] at h
  rw [log_printf_send_unlocked L env level pass s msgp buffer len msgsz flags tr hs] at h
  simp only [Option.some.injEq] at h
  subst h
  exact ⟨rfl, rfl⟩

theorem pass_of_races (L : Layout) (env : Env) (level pass flags : Nat) (s : EnqueueState)
    (tr : List Event) (h : races L env pass = true) :
    log_printf_pass L env level pass flags s tr =
      PassResult.again
        (tr ++ [Event.malloc (msgszOf L (env.fmt1 pass).length) (some (Msgp.heap pass)),
                Event.free (Msgp.heap pass)]) := by
  simp only [races, Bool.and_eq_true, decide_eq_true_eq, Bool.not_eq_true'] at h
  obtain ⟨⟨⟨⟨h1, h2⟩, h3⟩, h4⟩, h5⟩ := h
  simp only [sizeOverflows, Bool.or_eq_false_iff] at h2
  simp [log_printf_pass, vsnprintf, h1, h2.1, h2.2, h3, h4, h5, msgszOf]

theorem races_of_pass_again (L : Layout) (env : Env) (level pass flags : Nat)
    (s : EnqueueState) (tr tr1 : List Event)
    (h : log_printf_pass L env level pass flags s tr = PassResult.again tr1) :
    races L env pass = true := by
  unfold log_printf_pass at h
  simp only [vsnprintf] at h
  split_ifs at h with h1 h2 h3 h4 h5
  simp only [Bool.or_eq_true, not_or, Bool.not_eq_true] at h2
  simp [races, sizeOverflows, h1, h2.1, h2.2, h3, h4, h5]

theorem log_printf_from_races (L : Layout) (env : Env) (level : Nat) (s : EnqueueState)
    (k : Nat) :
    (∀ i, i < k → races L env i = true) → ∀ fuel,
      log_printf_from L env level (k + fuel) 0 0 s [] =
        log_printf_from L env level fuel k 0 s (raceTrace L env k) := by
  induction k with
  | zero => intro _ fuel; simp [raceTrace]
  | succ k ih =>
    intro hr fuel
    have h1 := ih (fun i hi => hr i (Nat.lt_succ_of_lt hi)) (fuel + 1)
    have h2 : k + 1 + fuel = k + (fuel + 1) := by omega
    rw [h2, h1]
    simp only [log_printf_from, pass_of_races L env level k 0 s _ (hr k (Nat.lt_succ_self k)),
      raceTrace]

/-- A call that completes has restarted once per racing pass and ended in a
pass that does not race. -/
theorem log_printf_from_complete (L : Layout) (env : Env) (level : Nat) (s : EnqueueState) :
    ∀ fuel k out, (∀ i, i < k → races L env i = true) →
      log_printf_from L env level fuel k 0 s (raceTrace L env k) = some out →
      ∃ n, (∀ i, i < n → races L env i = true) ∧ races L env n = false ∧
        log_printf_pass L env level n 0 s (raceTrace L env n) = PassResult.done (some out) := by
  intro fuel
  induction fuel with
  | zero => intro k out _ h; simp [log_printf_from] at h
  | succ fuel ih =>
    intro k out hr h
    simp only [log_printf_from] at h
    cases hp : log_printf_pass L env level k 0 s (raceTrace L env k) with
    | again tr1 =>
      have hk := races_of_pass_again L env level k 0 s _ tr1 hp
      rw [pass_of_races L env level k 0 s _ hk] at hp
      rw [pass_of_races L env level k 0 s _ hk] at h
      simp only at h
      apply ih (k + 1) out
      · intro i hi
        by_cases hik : i < k
        · exact hr i hik
        · have : i = k := by omega
          rw [this]; exact hk
      · simpa [raceTrace] using h
    | done o =>
      rw [hp] at h
      simp only at h
      subst h
      refine ⟨k, hr, ?_, hp⟩
      by_contra hk
      rw [pass_of_races L env level k 0 s _ (by simpa using hk)] at hp
      cases hp

/-! ## The final pass -/

theorem pass_unattached (L : Layout) (env : Env) (level pass flags : Nat) (s : EnqueueState)
    (tr : List Event) (hu : env.kctlunit pass = 0) :
    log_printf_pass L env level pass flags s tr =
      PassResult.done (some { state := s, trace := tr ++ [Event.vprintf], restarts := pass }) := by
  simp [log_printf_pass, hu, log_printf_release]

theorem pass_short (L : Layout) (env : Env) (level pass flags : Nat) (s : EnqueueState)
    (tr : List Event) (hu : env.kctlunit pass ≠ 0)
    (hov : sizeOverflows L (env.fmt1 pass).length = false)
    (hlen : (env.fmt1 pass).length < L.sizeof_buffer) :
    log_printf_pass L env level pass flags s tr =
      PassResult.done
        (log_printf_send L env level pass s Msgp.stack (env.fmt1 pass ++ [0])
          (env.fmt1 pass).length (msgszOf L (env.fmt1 pass).length) flags tr) := by
  simp only [sizeOverflows, Bool.or_eq_false_iff] at hov
  have h0 : L.sizeof_buffer ≠ 0 := by omega
  have h1 : ¬ L.sizeof_buffer ≤ (env.fmt1 pass).length := by omega
  have h2 : List.take (L.sizeof_buffer - 1) (env.fmt1 pass) = env.fmt1 pass :=
    List.take_of_length_le (by omega)
  simp [log_printf_pass, vsnprintf, hu, hov.1, hov.2, h0, h1, h2, msgszOf]

theorem pass_alloc_fail (L : Layout) (env : Env) (level pass flags : Nat) (s : EnqueueState)
    (tr : List Event) (hu : env.kctlunit pass ≠ 0)
    (hov : sizeOverflows L (env.fmt1 pass).length = false)
    (hlen : L.sizeof_buffer ≤ (env.fmt1 pass).length)
    (hm : env.malloc pass = false) :
    log_printf_pass L env level pass flags s tr =
      PassResult.done
        (log_printf_send L env level pass s Msgp.stack
          (vsnprintf L.sizeof_buffer (env.fmt1 pass)).1
          (env.fmt1 pass).length L.sizeof_stackmsg
          (flags ||| L.KEXTLOG_FLAG_MSG_TRUNCATED)
          (tr ++ [Event.malloc (msgszOf L (env.fmt1 pass).length) none])) := by
  simp only [sizeOverflows, Bool.or_eq_false_iff] at hov
  simp [log_printf_pass, vsnprintf, hu, hov.1, hov.2, hlen, hm, msgszOf]

theorem pass_heap (L : Layout) (env : Env) (level pass flags : Nat) (s : EnqueueState)
    (tr : List Event) (hu : env.kctlunit pass ≠ 0)
    (hov : sizeOverflows L (env.fmt1 pass).length = false)
    (hlen : L.sizeof_buffer ≤ (env.fmt1 pass).length)
    (hm : env.malloc pass = true)
    (h2 : (env.fmt2 pass).length ≤ (env.fmt1 pass).length) :
    log_printf_pass L env level pass flags s tr =
      PassResult.done
        (log_printf_send L env level pass s (Msgp.heap pass) (env.fmt2 pass ++ [0])
          (env.fmt2 pass).length (msgszOf L (env.fmt1 pass).length) flags
          (tr ++ [Event.malloc (msgszOf L (env.fmt1 pass).length)
                    (some (Msgp.heap pass))])) := by
  simp only [sizeOverflows, Bool.or_eq_false_iff] at hov
  have h3 : ¬ (env.fmt1 pass).length < (env.fmt2 pass).length := by omega
  have h4 : List.take (env.fmt1 pass).length (env.fmt2 pass) = env.fmt2 pass :=
    List.take_of_length_le h2
  simp [log_printf_pass, vsnprintf, hu, hov.1, hov.2, hlen, hm, h3, h4, msgszOf]

theorem pass_overflow (L : Layout) (env : Env) (level pass flags : Nat) (s : EnqueueState)
    (tr : List Event) (hu : env.kctlunit pass ≠ 0)
    (hov : sizeOverflows L (env.fmt1 pass).length = true) :
    log_printf_pass L env level pass flags s tr =
      PassResult.done
        (log_printf_send L env level pass s Msgp.stack
          (vsnprintf L.sizeof_buffer (env.fmt1 pass)).1
          (env.fmt1 pass).length L.sizeof_stackmsg
          (flags ||| L.KEXTLOG_FLAG_MSG_TRUNCATED)
          (tr ++ [Event.log_err])) := by
  simp only [sizeOverflows] at hov
  simp [log_printf_pass, vsnprintf, hu, hov]

/-! ## Observations on the calls of the send -/

theorem enqueued_sendTrace (L : Layout) (env : Env) (level : Nat) (s : EnqueueState)
    (msgp : Msgp) (buffer : List Nat) (len msgsz flags : Nat) (tr : List Event) :
    enqueued (sendTrace L env level s msgp buffer len msgsz flags tr) =
      enqueued tr ++ [(sentMsg L env level s buffer len flags, msgsz)] := by
  cases msgp <;> by_cases he : env.ctl_enqueuedata = 0 <;>
    simp [sendTrace, log_printf_release, enqueued_append, enqueued, he]

theorem mallocCount_sendTrace (L : Layout) (env : Env) (level : Nat) (s : EnqueueState)
    (msgp : Msgp) (buffer : List Nat) (len msgsz flags : Nat) (tr : List Event) :
    mallocCount (sendTrace L env level s msgp buffer len msgsz flags tr) = mallocCount tr := by
  cases msgp <;> by_cases he : env.ctl_enqueuedata = 0 <;>
    simp [sendTrace, log_printf_release, mallocCount_append, mallocCount, he]

theorem allocCount_sendTrace (L : Layout) (env : Env) (level : Nat) (s : EnqueueState)
    (msgp : Msgp) (buffer : List Nat) (len msgsz flags : Nat) (tr : List Event) (p : Msgp) :
    allocCount p (sendTrace L env level s msgp buffer len msgsz flags tr) = allocCount p tr := by
  cases msgp <;> by_cases he : env.ctl_enqueuedata = 0 <;>
    simp [sendTrace, log_printf_release, allocCount_append, allocCount, he]

theorem freeCount_sendTrace (L : Layout) (env : Env) (level : Nat) (s : EnqueueState)
    (msgp : Msgp) (buffer : List Nat) (len msgsz flags : Nat) (tr : List Event) (p : Msgp) :
    freeCount p (sendTrace L env level s msgp buffer len msgsz flags tr) =
      freeCount p tr + (if msgp ≠ Msgp.stack ∧ msgp = p then 1 else 0) := by
  cases msgp with
  | stack =>
    by_cases he : env.ctl_enqueuedata = 0 <;>
      simp [sendTrace, log_printf_release, freeCount, List.count_append, he]
  | heap i =>
    have hrel : ∀ t, log_printf_release (Msgp.heap i) t = t ++ [Event.free (Msgp.heap i)] := by
      intro t; simp [log_printf_release]
    simp only [sendTrace, hrel, freeCount, List.count_append]
    by_cases hp : Msgp.heap i = p
    · subst hp
      by_cases he : env.ctl_enqueuedata = 0 <;> simp [he]
    · have hq : ¬ p = Msgp.heap i := fun e => hp e.symm
      by_cases he : env.ctl_enqueuedata = 0 <;> simp [List.count_cons, he, hp, hq]

/-! ## Connection registry: claims C2, C4, C5 -/

/-- C4: `log_kctl_connect` with requested unit `u`: if the attached unit is
`0` it becomes `u` and the call returns success (`0`); if the attached unit is
already non-zero the call returns `EISCONN` and the attached unit is
unchanged. -/
theorem log_kctl_connect_spec (st : KctlState) (u : Nat) :
    (st.kctlunit = 0 → log_kctl_connect st u = ({ kctlunit := u }, 0)) ∧
    (st.kctlunit ≠ 0 → log_kctl_connect st u = (st, EISCONN)) := by
  constructor
  · intro h
    simp [log_kctl_connect, OSCompareAndSwap, h]
  · intro h
    simp [log_kctl_connect, OSCompareAndSwap, h]

/-- Instance of C4: connecting unit 7 to the unattached registry attaches it;
connecting unit 7 while unit 3 is attached is refused and leaves unit 3. -/
theorem log_kctl_connect_spec_witness :
    log_kctl_connect { kctlunit := 0 } 7 = ({ kctlunit := 7 }, 0) ∧
    log_kctl_connect { kctlunit := 3 } 7 = ({ kctlunit := 3 }, EISCONN) :=
  ⟨(log_kctl_connect_spec { kctlunit := 0 } 7).1 rfl,
   (log_kctl_connect_spec { kctlunit := 3 } 7).2 (by decide)⟩

/-- C5: `log_kctl_disconnect` with unit `u`: if `u` equals the currently
attached unit the attached unit becomes `0`; for every `u` that is not the
currently attached unit the attached state is unchanged; in both cases the
call returns `0`. -/
theorem log_kctl_disconnect_spec (st : KctlState) (u : Nat) :
    (u = st.kctlunit → (log_kctl_disconnect st u).1 = { kctlunit := 0 }) ∧
    (u ≠ st.kctlunit → (log_kctl_disconnect st u).1 = st) ∧
    (log_kctl_disconnect st u).2 = 0 := by
  refine ⟨?_, ?_, ?_⟩
  · intro h
    simp [log_kctl_disconnect, OSCompareAndSwap, h]
  · intro h
    have h2 : ¬ st.kctlunit = u := fun e => h e.symm
    simp [log_kctl_disconnect, OSCompareAndSwap, h2]
  · by_cases h : st.kctlunit = u <;> simp [log_kctl_disconnect, OSCompareAndSwap, h]

/-- Instance of C5: disconnecting the attached unit 3 detaches it;
disconnecting unit 7 while unit 3 is attached changes nothing. -/
theorem log_kctl_disconnect_spec_witness :
    (log_kctl_disconnect { kctlunit := 3 } 3).1 = { kctlunit := 0 } ∧
    (log_kctl_disconnect { kctlunit := 3 } 7).1 = { kctlunit := 3 } ∧
    (log_kctl_disconnect { kctlunit := 3 } 7).2 = 0 :=
  ⟨(log_kctl_disconnect_spec { kctlunit := 3 } 3).1 rfl,
   (log_kctl_disconnect_spec { kctlunit := 3 } 7).2.1 (by decide),
   (log_kctl_disconnect_spec { kctlunit := 3 } 7).2.2⟩

/-- C2: at most one observer can be attached at a time.  Unit identifiers are
positive (`0` is the value of `kctlunit` for "none attached"; the source says
"Active unit is positive").  For every pair of different unit identifiers
`u1 ≠ u2`, starting from the unattached state and running the two connect
callbacks as atomic steps in either order, exactly one returns success (`0`)
and the other returns `EISCONN`: the first call succeeds, the second is
refused, and the registry afterwards holds the unit of the first call and not
the other one. -/
theorem connect_two_exactly_one (u1 u2 : Nat) (h1 : u1 ≠ 0) (h2 : u2 ≠ 0)
    (hne : u1 ≠ u2) :
    exactlyOneConnected (connectTwice u1 u2).1 (connectTwice u1 u2).2 ∧
    exactlyOneConnected (connectTwice u2 u1).1 (connectTwice u2 u1).2 ∧
    connectTwice u1 u2 = (0, EISCONN) ∧ connectTwice u2 u1 = (0, EISCONN) ∧
    (connectTwiceState u1 u2).kctlunit = u1 ∧ (connectTwiceState u1 u2).kctlunit ≠ u2 ∧
    (connectTwiceState u2 u1).kctlunit = u2 ∧ (connectTwiceState u2 u1).kctlunit ≠ u1 := by
  have a : connectTwice u1 u2 = (0, EISCONN) := by
    simp [connectTwice, log_kctl_connect, OSCompareAndSwap, h1]
  have b : connectTwice u2 u1 = (0, EISCONN) := by
    simp [connectTwice, log_kctl_connect, OSCompareAndSwap, h2]
  have c : (connectTwiceState u1 u2).kctlunit = u1 := by
    simp [connectTwiceState, log_kctl_connect, OSCompareAndSwap, h1]
  have d : (connectTwiceState u2 u1).kctlunit = u2 := by
    simp [connectTwiceState, log_kctl_connect, OSCompareAndSwap, h2]
  refine ⟨?_, ?_, a, b, c, ?_, d, ?_⟩
  · rw [a]; exact Or.inl ⟨rfl, rfl⟩
  · rw [b]; exact Or.inl ⟨rfl, rfl⟩
  · rw [c]; exact hne
  · rw [d]; exact fun e => hne e.symm

/-- Instance of C2 for the units 1 and 2. -/
theorem connect_two_exactly_one_witness :
    exactlyOneConnected (connectTwice 1 2).1 (connectTwice 1 2).2 ∧
    exactlyOneConnected (connectTwice 2 1).1 (connectTwice 2 1).2 ∧
    connectTwice 1 2 = (0, EISCONN) ∧ connectTwice 2 1 = (0, EISCONN) ∧
    (connectTwiceState 1 2).kctlunit = 1 ∧ (connectTwiceState 1 2).kctlunit ≠ 2 ∧
    (connectTwiceState 2 1).kctlunit = 2 ∧ (connectTwiceState 2 1).kctlunit ≠ 1 :=
  connect_two_exactly_one 1 2 (by decide) (by decide) (by decide)

/-! ## Delivery channel guard: claim C3 -/

/-- C3: for every sequence of send attempts through `enqueue_log`, started
with the statics as at module load, whose records arrive without `DROPPED`,
every attempt hands one record to the transport, and that record carries
`DROPPED` exactly when the immediately preceding attempt failed; in
particular, if exactly one send fails (attempt `i`), the next record has
`DROPPED` set and the record after that does not. -/
theorem enqueue_log_dropped_iff (L : Layout) (as : List Attempt)
    (h : ∀ a ∈ as, ¬ hasFlag a.msg.flags L.KEXTLOG_FLAG_MSG_DROPPED) :
    ∃ s1 rs, runSends L EnqueueState.init as = some (s1, rs) ∧ rs.length = as.length ∧
      (∀ i r, rs[i]? = some r →
        (∃ a, as[i]? = some a ∧ r.ret = a.e ∧ enqueued r.events = [(r.msg, a.len)]) ∧
        (hasFlag r.msg.flags L.KEXTLOG_FLAG_MSG_DROPPED ↔
          0 < i ∧ ∃ a, as[i - 1]? = some a ∧ a.e ≠ 0)) ∧
      (∀ i, (∀ j a, as[j]? = some a → (a.e ≠ 0 ↔ j = i)) →
        (∀ r, rs[i + 1]? = some r → hasFlag r.msg.flags L.KEXTLOG_FLAG_MSG_DROPPED) ∧
        (∀ r, rs[i + 2]? = some r → ¬ hasFlag r.msg.flags L.KEXTLOG_FLAG_MSG_DROPPED)) := by
  obtain ⟨s1, rs, hrun, hlen, _, hall⟩ := runSends_spec L as EnqueueState.init rfl h
  have hiff : ∀ i r, rs[i]? = some r →
      (∃ a, as[i]? = some a ∧ r.ret = a.e ∧ enqueued r.events = [(r.msg, a.len)]) ∧
      (hasFlag r.msg.flags L.KEXTLOG_FLAG_MSG_DROPPED ↔
        0 < i ∧ ∃ a, as[i - 1]? = some a ∧ a.e ≠ 0) := by
    intro i r hir
    obtain ⟨h1, h2⟩ := hall i r hir
    refine ⟨h1, ?_⟩
    rw [h2]
    simp [EnqueueState.init]
  refine ⟨s1, rs, hrun, hlen, hiff, ?_⟩
  intro i hone
  constructor
  · intro r hr
    have hi : i + 1 < as.length := by
      have := (List.getElem?_eq_some_iff.1 hr).1
      omega
    have hai : as[i]? = some as[i] := List.getElem?_eq_getElem (by omega)
    refine ((hiff (i + 1) r hr).2).2 ⟨Nat.succ_pos i, as[i], ?_, ?_⟩
    · simp
    · exact (hone i as[i] hai).2 rfl
  · intro r hr
    have hi : i + 2 < as.length := by
      have := (List.getElem?_eq_some_iff.1 hr).1
      omega
    have hai : as[i + 1]? = some as[i + 1] := List.getElem?_eq_getElem (by omega)
    intro hflag
    obtain ⟨_, a, ha, hae⟩ := ((hiff (i + 2) r hr).2).1 hflag
    have ha2 : as[i + 1]? = some a := by simpa using ha
    have := (hone (i + 1) a ha2).1 hae
    omega

/-- Instance of C3: three sends of a record without flags, the first of which
fails; the second record carries `DROPPED`, the third does not. -/
theorem enqueue_log_dropped_iff_witness :
    ∃ s1 rs,
      runSends exLayout EnqueueState.init
        [{ msg := { size := 2, level := 1, flags := 0, timestamp := 0, buffer := [97, 0] },
           len := 26, e := 55 },
         { msg := { size := 2, level := 1, flags := 0, timestamp := 1, buffer := [98, 0] },
           len := 26, e := 0 },
         { msg := { size := 2, level := 1, flags := 0, timestamp := 2, buffer := [99, 0] },
           len := 26, e := 0 }] = some (s1, rs) ∧ rs.length = 3 ∧
      (∀ r, rs[1]? = some r → hasFlag r.msg.flags exLayout.KEXTLOG_FLAG_MSG_DROPPED) ∧
      (∀ r, rs[2]? = some r → ¬ hasFlag r.msg.flags exLayout.KEXTLOG_FLAG_MSG_DROPPED) := by
  obtain ⟨s1, rs, hrun, hlen, _, hone⟩ :=
    enqueue_log_dropped_iff exLayout
      [{ msg := { size := 2, level := 1, flags := 0, timestamp := 0, buffer := [97, 0] },
         len := 26, e := 55 },
       { msg := { size := 2, level := 1, flags := 0, timestamp := 1, buffer := [98, 0] },
         len := 26, e := 0 },
       { msg := { size := 2, level := 1, flags := 0, timestamp := 2, buffer := [99, 0] },
         len := 26, e := 0 }]
      (by decide)
  refine ⟨s1, rs, hrun, hlen, hone 0 ?_⟩
  intro j a hj
  match j, hj with
  | 0, hj => simp at hj; subst hj; simp
  | 1, hj => simp at hj; subst hj; simp
  | 2, hj => simp at hj; subst hj; simp
  | (n + 3), hj => simp at hj

/-! ## Case analysis of a pass -/

theorem pass_cases (L : Layout) (env : Env) (level pass flags : Nat) (s : EnqueueState)
    (tr : List Event) :
    (env.kctlunit pass = 0 ∧ races L env pass = false ∧
      log_printf_pass L env level pass flags s tr =
        PassResult.done
          (some { state := s, trace := tr ++ [Event.vprintf], restarts := pass })) ∨
    races L env pass = true ∨
    (env.kctlunit pass ≠ 0 ∧ races L env pass = false ∧
      ∃ msgp buffer len msgsz fl pre,
        log_printf_pass L env level pass flags s tr =
          PassResult.done
            (log_printf_send L env level pass s msgp buffer len msgsz fl (tr ++ pre)) ∧
        sendShape pass msgp pre) := by
  by_cases hu : env.kctlunit pass = 0
  · exact Or.inl ⟨hu, by simp [races, hu], pass_unattached L env level pass flags s tr hu⟩
  · by_cases hov : sizeOverflows L (env.fmt1 pass).length = true
    · refine Or.inr (Or.inr ⟨hu, by simp [races, hov], _, _, _, _, _, [Event.log_err],
        pass_overflow L env level pass flags s tr hu hov, ?_⟩)
      exact Or.inl ⟨rfl, Or.inr (Or.inl rfl)⟩
    · have hov2 : sizeOverflows L (env.fmt1 pass).length = false := by simpa using hov
      by_cases hlen : (env.fmt1 pass).length < L.sizeof_buffer
      · have hnr : races L env pass = false := by
          have : ¬ L.sizeof_buffer ≤ (env.fmt1 pass).length := by omega
          simp [races, this]
        refine Or.inr (Or.inr ⟨hu, hnr, Msgp.stack, env.fmt1 pass ++ [0],
          (env.fmt1 pass).length, msgszOf L (env.fmt1 pass).length, flags, [], ?_,
          Or.inl ⟨rfl, Or.inl rfl⟩⟩)
        rw [List.append_nil]
        exact pass_short L env level pass flags s tr hu hov2 hlen
      · have hlen2 : L.sizeof_buffer ≤ (env.fmt1 pass).length := by omega
        by_cases hm : env.malloc pass = true
        · by_cases h2 : (env.fmt2 pass).length ≤ (env.fmt1 pass).length
          · have hnr : races L env pass = false := by
              have : ¬ (env.fmt1 pass).length < (env.fmt2 pass).length := by omega
              simp [races, this]
            exact Or.inr (Or.inr ⟨hu, hnr, _, _, _, _, _, _,
              pass_heap L env level pass flags s tr hu hov2 hlen2 hm h2,
              Or.inr ⟨rfl, _, rfl⟩⟩)
          · have h3 : (env.fmt1 pass).length < (env.fmt2 pass).length := by omega
            exact Or.inr (Or.inl (by simp [races, hu, hov2, hlen2, hm, h3]))
        · have hm2 : env.malloc pass = false := by simpa using hm
          exact Or.inr (Or.inr ⟨hu, by simp [races, hm2], _, _, _, _, _, _,
            pass_alloc_fail L env level pass flags s tr hu hov2 hlen2 hm2,
            Or.inl ⟨rfl, Or.inr (Or.inr ⟨_, rfl⟩)⟩⟩)

theorem sendTrace_eq_append (L : Layout) (env : Env) (level : Nat) (s : EnqueueState)
    (msgp : Msgp) (buffer : List Nat) (len msgsz flags : Nat) (tr : List Event) :
    ∃ suf, sendTrace L env level s msgp buffer len msgsz flags tr = tr ++ suf := by
  cases msgp with
  | stack =>
    exact ⟨Event.ctl_enqueuedata (sentMsg L env level s buffer len flags) msgsz
        env.ctl_enqueuedata ::
      (if env.ctl_enqueuedata ≠ 0 then [Event.log_err, Event.vprintf] else []),
      by simp [sendTrace, log_printf_release]⟩
  | heap i =>
    exact ⟨(Event.ctl_enqueuedata (sentMsg L env level s buffer len flags) msgsz
        env.ctl_enqueuedata ::
      (if env.ctl_enqueuedata ≠ 0 then [Event.log_err, Event.vprintf] else [])) ++
        [Event.free (Msgp.heap i)],
      by simp [sendTrace, log_printf_release]⟩

theorem mem_malloc_allocCount (p : Msgp) (sz : Nat) (tr : List Event)
    (h : Event.malloc sz (some p) ∈ tr) : 0 < allocCount p tr := by
  induction tr with
  | nil => simp at h
  | cons x xs ih =>
    rcases List.mem_cons.1 h with h1 | h1
    · subst h1
      simp [allocCount]
    · have := ih h1
      cases x with
      | malloc sz2 res => cases res <;> simp [allocCount] <;> omega
      | _ => simpa [allocCount] using this

/-- A completed call, described by its last pass `n`: either no observer was
seen there and the message went to `vprintf`, or a record was sent after the
calls `pre`. -/
theorem log_printf_complete_cases (L : Layout) (env : Env) (s : EnqueueState)
    (level fuel : Nat) (out : Outcome) (h : log_printf L fuel env s level = some out) :
    (∀ i, i < out.restarts → races L env i = true) ∧ races L env out.restarts = false ∧
    ((env.kctlunit out.restarts = 0 ∧
        out.trace = raceTrace L env out.restarts ++ [Event.vprintf]) ∨
     (env.kctlunit out.restarts ≠ 0 ∧
        ∃ msgp buffer len msgsz fl pre,
          out.trace = sendTrace L env level s msgp buffer len msgsz fl
            (raceTrace L env out.restarts ++ pre) ∧
          sendShape out.restarts msgp pre)) := by
  have h0 : ∀ i, i < 0 → races L env i = true := fun i hi => absurd hi (Nat.not_lt_zero i)
  obtain ⟨n, hr, hn, hp⟩ := log_printf_from_complete L env level s fuel 0 out h0 h
  rcases pass_cases L env level n 0 s (raceTrace L env n) with hc | hc | hc
  · obtain ⟨hu, _, hq⟩ := hc
    rw [hq] at hp
    simp only [PassResult.done.injEq, Option.some.injEq] at hp
    subst hp
    exact ⟨hr, hn, Or.inl ⟨hu, rfl⟩⟩
  · rw [hn] at hc; cases hc
  · obtain ⟨hu, _, msgp, buffer, len, msgsz, fl, pre, hq, hshape⟩ := hc
    rw [hq] at hp
    simp only [PassResult.done.injEq] at hp
    obtain ⟨h1, h2⟩ := log_printf_send_some L env level n s msgp buffer len msgsz fl _ out hp
    rw [h1]
    exact ⟨hr, hn, Or.inr ⟨hu, msgp, buffer, len, msgsz, fl, pre, h2, hshape⟩⟩

/-! ## More facts used by the claims about `log_printf` -/

theorem and_or_self_flag (t d : Nat) : (t ||| d) &&& t = t := by
  apply Nat.eq_of_testBit_eq
  intro i
  simp only [Nat.testBit_and, Nat.testBit_or]
  cases t.testBit i <;> cases d.testBit i <;> rfl

theorem not_hasFlag_truncated (L : Layout) (hwf : L.wf) (b : Prop) [Decidable b] :
    ¬ hasFlag (if b then 0 ||| L.KEXTLOG_FLAG_MSG_DROPPED else 0)
      L.KEXTLOG_FLAG_MSG_TRUNCATED := by
  obtain ⟨_, _, _, ht, _, hdt⟩ := hwf
  unfold hasFlag
  by_cases hb : b
  · simp only [hb, if_true, Nat.zero_or, hdt]
    exact fun e => ht e.symm
  · simp only [hb, if_false, Nat.zero_and]
    exact fun e => ht e.symm

theorem hasFlag_truncated (L : Layout) (b : Prop) [Decidable b] :
    hasFlag (if b then (0 ||| L.KEXTLOG_FLAG_MSG_TRUNCATED) ||| L.KEXTLOG_FLAG_MSG_DROPPED
             else 0 ||| L.KEXTLOG_FLAG_MSG_TRUNCATED)
      L.KEXTLOG_FLAG_MSG_TRUNCATED := by
  unfold hasFlag
  by_cases hb : b
  · simp only [hb, if_true, Nat.zero_or]
    exact and_or_self_flag _ _
  · simp only [hb, if_false, Nat.zero_or, Nat.and_self]

theorem size_no_wrap (len : Nat) (h : len ≤ INT_MAX) : (len + 1) % UINT_MOD = len + 1 := by
  apply Nat.mod_eq_of_lt
  have : INT_MAX + 1 < UINT_MOD := by decide
  omega

theorem sendShape_facts (pass : Nat) (msgp : Msgp) (pre : List Event)
    (h : sendShape pass msgp pre) :
    enqueued pre = [] ∧ vprintfCount pre = 0 ∧ (∀ p, freeCount p pre = 0) ∧
    (∀ p, allocCount p pre = if msgp ≠ Msgp.stack ∧ msgp = p then 1 else 0) ∧
    (msgp = Msgp.stack ∨ msgp = Msgp.heap pass) := by
  rcases h with ⟨hm, hp | hp | ⟨sz, hp⟩⟩ | ⟨hm, sz, hp⟩
  · subst hm; subst hp
    simp [enqueued, vprintfCount, freeCount, allocCount]
  · subst hm; subst hp
    simp [enqueued, vprintfCount, freeCount, allocCount]
  · subst hm; subst hp
    simp [enqueued, vprintfCount, freeCount, allocCount]
  · subst hm; subst hp
    simp [enqueued, vprintfCount, freeCount, allocCount]

theorem log_printf_from_all_race (L : Layout) (env : Env) (level : Nat) (s : EnqueueState)
    (hall : ∀ i, races L env i = true) :
    ∀ fuel pass flags tr, log_printf_from L env level fuel pass flags s tr = none := by
  intro fuel
  induction fuel with
  | zero => intro pass flags tr; rfl
  | succ fuel ih =>
    intro pass flags tr
    simp only [log_printf_from, pass_of_races L env level pass flags s tr (hall pass)]
    exact ih _ _ _

theorem log_printf_of_last_pass (L : Layout) (env : Env) (s : EnqueueState)
    (level k fuel : Nat) (msgp : Msgp) (buffer : List Nat) (len msgsz fl : Nat)
    (tr1 : List Event) (hs : s.spin_lock = 0)
    (hr : ∀ i, i < k → races L env i = true)
    (hp : log_printf_pass L env level k 0 s (raceTrace L env k) =
      PassResult.done (log_printf_send L env level k s msgp buffer len msgsz fl tr1)) :
    log_printf L (k + (fuel + 1)) env s level =
      some { state := { last_dropped := if env.ctl_enqueuedata ≠ 0 then 1 else 0,
                        spin_lock := 0 },
             trace := sendTrace L env level s msgp buffer len msgsz fl tr1,
             restarts := k } := by
  unfold log_printf
  rw [log_printf_from_races L env level s k hr (fuel + 1)]
  simp only [log_printf_from, hp]
  exact log_printf_send_unlocked L env level k s _ _ _ _ _ _ hs

/-! ## Message builder: claims C1, C6, C7 -/

/-- C6: for every log call whose last pass (pass `k`, reached after `k`
restarts; `k = 0` when no formatting race occurs) sees an observer attached
and a formatted text shorter than the fixed buffer capacity, the call
completes and hands exactly one record to the transport, of
`header size + len + 1` bytes, with `size = len + 1`, the caller's level, the
text and its terminator, and flags without `TRUNCATED` (`0` before the guard
adds a `DROPPED` notice); that pass performs no allocation: the only
`_MALLOC` calls are the `k` of the restarted passes, none when `k = 0`. -/
theorem log_printf_short_record (L : Layout) (env : Env) (s : EnqueueState)
    (level k fuel : Nat) (hwf : L.wf) (hs : s.spin_lock = 0)
    (hr : ∀ i, i < k → races L env i = true) (hu : env.kctlunit k ≠ 0)
    (hlen : (env.fmt1 k).length < L.sizeof_buffer) :
    ∃ out m, log_printf L (k + (fuel + 1)) env s level = some out ∧ out.restarts = k ∧
      enqueued out.trace = [(m, L.sizeof_msghdr + (env.fmt1 k).length + 1)] ∧
      m.size = (env.fmt1 k).length + 1 ∧ m.level = level ∧
      m.flags = (if s.last_dropped ≠ 0 then L.KEXTLOG_FLAG_MSG_DROPPED else 0) ∧
      ¬ hasFlag m.flags L.KEXTLOG_FLAG_MSG_TRUNCATED ∧
      m.buffer = env.fmt1 k ++ [0] ∧
      mallocCount out.trace = k := by
  have hint : (env.fmt1 k).length ≤ INT_MAX := by
    obtain ⟨_, h2, h3, _⟩ := hwf
    omega
  obtain ⟨hov, hsz⟩ := no_overflow L _ (wf_no_overflow L hwf _ hint)
  have hrun := log_printf_of_last_pass L env s level k fuel _ _ _ _ _ _ hs hr
    (pass_short L env level k 0 s _ hu hov hlen)
  refine ⟨_, sentMsg L env level s (env.fmt1 k ++ [0]) (env.fmt1 k).length 0, hrun, rfl,
    ?_, ?_, rfl, ?_, ?_, rfl, ?_⟩
  · simp only [enqueued_sendTrace, enqueued_raceTrace, hsz, List.nil_append]
  · exact size_no_wrap _ hint
  · simp [sentMsg]
  · exact not_hasFlag_truncated L hwf _
  · simp only [mallocCount_sendTrace, mallocCount_raceTrace]

/-- Instance of C6, the end-to-end example of the specification: with unit 1
attached, logging `hello` at level 2 hands the transport one record with
`size = 6`, `level = 2`, `flags = 0`, and allocates nothing. -/
theorem log_printf_short_record_witness :
    ∃ out m, log_printf exLayout (0 + (0 + 1)) exEnvHello EnqueueState.init 2 = some out ∧
      out.restarts = 0 ∧
      enqueued out.trace = [(m, 24 + 5 + 1)] ∧ m.size = 5 + 1 ∧ m.level = 2 ∧ m.flags = 0 ∧
      ¬ hasFlag m.flags 2 ∧ m.buffer = [104, 101, 108, 108, 111, 0] ∧
      mallocCount out.trace = 0 :=
  log_printf_short_record exLayout exEnvHello EnqueueState.init 2 0 0
    (by decide) rfl (by decide) (by decide) (by decide)

/-- C1, what the code does: when the last pass sees an observer attached, a
formatted length `len` of at least the fixed buffer capacity, and `_MALLOC`
returns `NULL`, the record handed to the transport is the stack record, sent
with `sizeof(msg)` bytes and flags including `TRUNCATED`; its buffer holds
exactly `sizeof(msg.buffer)` bytes, but its `size` field is `len + 1`, which
is larger than the fixed buffer capacity and so never equal to it. -/
theorem log_printf_alloc_fail_record (L : Layout) (env : Env) (s : EnqueueState)
    (level k fuel : Nat) (hwf : L.wf) (hs : s.spin_lock = 0)
    (hr : ∀ i, i < k → races L env i = true) (hu : env.kctlunit k ≠ 0)
    (hlen : L.sizeof_buffer ≤ (env.fmt1 k).length)
    (hint : (env.fmt1 k).length ≤ INT_MAX)
    (hm : env.malloc k = false) :
    ∃ out m, log_printf L (k + (fuel + 1)) env s level = some out ∧ out.restarts = k ∧
      enqueued out.trace = [(m, L.sizeof_stackmsg)] ∧
      hasFlag m.flags L.KEXTLOG_FLAG_MSG_TRUNCATED ∧
      m.buffer.length = L.sizeof_buffer ∧
      m.size = (env.fmt1 k).length + 1 ∧
      L.sizeof_buffer < m.size ∧ m.size ≠ L.sizeof_buffer := by
  obtain ⟨hov, _⟩ := no_overflow L _ (wf_no_overflow L hwf _ hint)
  have hpos : 0 < L.sizeof_buffer := hwf.1
  have hsize : (sentMsg L env level s (vsnprintf L.sizeof_buffer (env.fmt1 k)).1
      (env.fmt1 k).length (0 ||| L.KEXTLOG_FLAG_MSG_TRUNCATED)).size =
      (env.fmt1 k).length + 1 := size_no_wrap _ hint
  have hrun := log_printf_of_last_pass L env s level k fuel _ _ _ _ _ _ hs hr
    (pass_alloc_fail L env level k 0 s _ hu hov hlen hm)
  refine ⟨_, sentMsg L env level s (vsnprintf L.sizeof_buffer (env.fmt1 k)).1
    (env.fmt1 k).length (0 ||| L.KEXTLOG_FLAG_MSG_TRUNCATED), hrun, rfl, ?_, ?_, ?_, hsize,
    ?_, ?_⟩
  · simp [enqueued_sendTrace, enqueued_append, enqueued_raceTrace, enqueued]
  · exact hasFlag_truncated L _
  · have h0 : L.sizeof_buffer ≠ 0 := by omega
    simp only [sentMsg, vsnprintf, h0, if_false, List.length_append, List.length_take,
      List.length_singleton]
    omega
  · rw [hsize]; omega
  · rw [hsize]; omega

/-- Instance of C1 at the failing input: the inline buffer has 8 bytes, the
message has 10 characters and the allocation fails; the record goes out with
32 bytes, `TRUNCATED`, 8 bytes of buffer, and `size = 11`. -/
theorem log_printf_alloc_fail_record_witness :
    ∃ out m, log_printf exLayout (0 + (0 + 1)) exEnvNoMem EnqueueState.init 2 = some out ∧
      out.restarts = 0 ∧
      enqueued out.trace = [(m, 32)] ∧ hasFlag m.flags 2 ∧ m.buffer.length = 8 ∧
      m.size = 10 + 1 ∧ 8 < m.size ∧ m.size ≠ 8 :=
  log_printf_alloc_fail_record exLayout exEnvNoMem EnqueueState.init 2 0 0
    (by decide) rfl (by decide) (by decide) (by decide) (by decide) rfl

/-- C7 as stated fails when the second formatting pass reports a shorter
length than the first: with a 24-byte header, an 8-byte inline buffer, a first
pass of 10 characters, a successful allocation and a second pass of 9
characters, the record has `size = 10` while 35 bytes are enqueued, so no
text length `t` gives both `size = t + 1` and `header size + t + 1` bytes. -/
theorem log_printf_heap_counterexample :
    exLayout.sizeof_buffer ≤ (exEnvShrink.fmt1 0).length ∧ exEnvShrink.malloc 0 = true ∧
    (exEnvShrink.fmt2 0).length ≤ (exEnvShrink.fmt1 0).length ∧
    (log_printf exLayout 1 exEnvShrink EnqueueState.init 2).map
        (fun out => (enqueued out.trace).map (fun r => (r.1.size, r.2))) =
      some [(10, 35)] ∧
    ¬ ∃ t, 10 = t + 1 ∧ 35 = exLayout.sizeof_msghdr + t + 1 := by
  refine ⟨by decide, by decide, by decide, by decide, ?_⟩
  rintro ⟨t, h1, h2⟩
  simp only [exLayout] at h2
  omega

/-- C7, amended: for every log call whose last pass (pass `k`) sees an
observer attached and a first-pass length `len` of at least the fixed buffer
capacity, when the allocation succeeds and the second formatting pass reports
a length `len2` that is not longer, the call completes and the record handed
to the transport is untruncated: flags excludes `TRUNCATED`, its buffer holds
the text of the second pass and its terminator, its `size` field is
`len2 + 1`, and the number of bytes enqueued is `header size + len + 1`, the
size computed from the first pass; the two describe the same text length when
the passes agree (`len2 = len`). -/
theorem log_printf_heap_record (L : Layout) (env : Env) (s : EnqueueState)
    (level k fuel : Nat) (hwf : L.wf) (hs : s.spin_lock = 0)
    (hr : ∀ i, i < k → races L env i = true) (hu : env.kctlunit k ≠ 0)
    (hlen : L.sizeof_buffer ≤ (env.fmt1 k).length)
    (hint : (env.fmt1 k).length ≤ INT_MAX)
    (hm : env.malloc k = true)
    (h2 : (env.fmt2 k).length ≤ (env.fmt1 k).length) :
    ∃ out m, log_printf L (k + (fuel + 1)) env s level = some out ∧ out.restarts = k ∧
      enqueued out.trace = [(m, L.sizeof_msghdr + (env.fmt1 k).length + 1)] ∧
      m.size = (env.fmt2 k).length + 1 ∧ m.level = level ∧
      m.flags = (if s.last_dropped ≠ 0 then L.KEXTLOG_FLAG_MSG_DROPPED else 0) ∧
      ¬ hasFlag m.flags L.KEXTLOG_FLAG_MSG_TRUNCATED ∧
      m.buffer = env.fmt2 k ++ [0] ∧
      ((env.fmt2 k).length = (env.fmt1 k).length →
        m.size = (env.fmt1 k).length + 1 ∧
        enqueued out.trace = [(m, L.sizeof_msghdr + (m.size - 1) + 1)]) := by
  obtain ⟨hov, hsz⟩ := no_overflow L _ (wf_no_overflow L hwf _ hint)
  have hsize : (sentMsg L env level s (env.fmt2 k ++ [0]) (env.fmt2 k).length 0).size =
      (env.fmt2 k).length + 1 := size_no_wrap _ (le_trans h2 hint)
  have henq : enqueued (sendTrace L env level s (Msgp.heap k) (env.fmt2 k ++ [0])
      (env.fmt2 k).length (msgszOf L (env.fmt1 k).length) 0
      (raceTrace L env k ++
        [Event.malloc (msgszOf L (env.fmt1 k).length) (some (Msgp.heap k))])) =
      [(sentMsg L env level s (env.fmt2 k ++ [0]) (env.fmt2 k).length 0,
        L.sizeof_msghdr + (env.fmt1 k).length + 1)] := by
    simp [enqueued_sendTrace, enqueued_append, enqueued_raceTrace, enqueued, hsz]
  have hrun := log_printf_of_last_pass L env s level k fuel _ _ _ _ _ _ hs hr
    (pass_heap L env level k 0 s _ hu hov hlen hm h2)
  refine ⟨_, sentMsg L env level s (env.fmt2 k ++ [0]) (env.fmt2 k).length 0, hrun, rfl,
    henq, hsize, rfl, ?_, ?_, rfl, ?_⟩
  · simp [sentMsg]
  · exact not_hasFlag_truncated L hwf _
  · intro heq
    rw [henq, hsize, heq]
    simp

/-- Instance of the amended C7 after two restarts: ten characters in both
passes of pass 2; the record has `size = 11` and 35 bytes are enqueued. -/
theorem log_printf_heap_record_witness :
    ∃ out m, log_printf exLayout (2 + (0 + 1)) exEnvTwoRaces EnqueueState.init 2 = some out ∧
      out.restarts = 2 ∧
      enqueued out.trace = [(m, 24 + 10 + 1)] ∧ m.size = 10 + 1 ∧ m.level = 2 ∧
      m.flags = 0 ∧ ¬ hasFlag m.flags 2 ∧
      m.buffer = [97, 98, 99, 100, 101, 102, 103, 104, 105, 106, 0] ∧
      ((10 : Nat) = 10 → m.size = 10 + 1 ∧ enqueued out.trace = [(m, 24 + (m.size - 1) + 1)]) :=
  log_printf_heap_record exLayout exEnvTwoRaces EnqueueState.init 2 2 0
    (by decide) rfl (by decide) (by decide) (by decide) (by decide) rfl (by decide)

/-! ## Message builder: claims C8, C9, C10 -/

/-- C9 as stated fails: with a formatter whose second pass is longer than the
first in passes 0 and 1, the call goes back to `out_again` twice, not at most
once. -/
theorem log_printf_restart_counterexample :
    Option.map Outcome.restarts (log_printf exLayout 3 exEnvTwoRaces EnqueueState.init 2) =
      some 2 ∧
    log_printf exLayout 2 exEnvTwoRaces EnqueueState.init 2 = none ∧ ¬ (2 ≤ 1) := by
  decide

/-- C9, amended: whenever the second formatting pass reports a longer length
than the first, the allocation is released and the build restarts from the
attachment check, once per such pass and not at most once: if passes
`0 .. k-1` race and pass `k` does not, the call runs to completion after
exactly `k` restarts, its trace starting with the allocation and release of
each of the `k` passes; and under a formatter that races in every pass the
call never completes, whatever the number of passes allowed. -/
theorem log_printf_restarts (L : Layout) (env : Env) (s : EnqueueState) (level : Nat)
    (hs : s.spin_lock = 0) :
    (∀ k, (∀ i, i < k → races L env i = true) → races L env k = false →
      ∀ fuel, ∃ out, log_printf L (k + (fuel + 1)) env s level = some out ∧
        out.restarts = k ∧ raceTrace L env k <+: out.trace) ∧
    ((∀ i, races L env i = true) → ∀ fuel, log_printf L fuel env s level = none) := by
  constructor
  · intro k hr hk fuel
    have hstep : log_printf L (k + (fuel + 1)) env s level =
        (match log_printf_pass L env level k 0 s (raceTrace L env k) with
         | PassResult.again tr1 => log_printf_from L env level fuel (k + 1) 0 s tr1
         | PassResult.done o => o) := by
      unfold log_printf
      rw [log_printf_from_races L env level s k hr (fuel + 1)]
      rfl
    rcases pass_cases L env level k 0 s (raceTrace L env k) with hc | hc | hc
    · obtain ⟨_, _, hq⟩ := hc
      rw [hq] at hstep
      exact ⟨_, hstep, rfl, List.prefix_append _ _⟩
    · rw [hk] at hc; cases hc
    · obtain ⟨_, _, msgp, buffer, len, msgsz, fl, pre, hq, _⟩ := hc
      rw [hq] at hstep
      simp only at hstep
      rw [log_printf_send_unlocked L env level k s _ _ _ _ _ _ hs] at hstep
      refine ⟨_, hstep, rfl, ?_⟩
      obtain ⟨suf, hsuf⟩ := sendTrace_eq_append L env level s msgp buffer len msgsz fl
        (raceTrace L env k ++ pre)
      simp only [hsuf, List.append_assoc]
      exact List.prefix_append _ _
  · intro hall fuel
    exact log_printf_from_all_race L env level s hall fuel 0 0 []

/-- Instance of the amended C9: two racing passes, then completion after two
restarts. -/
theorem log_printf_restarts_witness :
    ∃ out, log_printf exLayout (2 + (0 + 1)) exEnvTwoRaces EnqueueState.init 2 = some out ∧
      out.restarts = 2 ∧ raceTrace exLayout exEnvTwoRaces 2 <+: out.trace :=
  (log_printf_restarts exLayout exEnvTwoRaces EnqueueState.init 2 rfl).1 2
    (by decide) (by decide) 0

/-- C10: for every log call that completes, every heap region that `_MALLOC`
returned is passed to `_FREE` exactly once before the call returns, whatever
the path (delivered, delivery failed, restart after a formatting race); no
region is released that was not allocated, no region is allocated twice, and
the stack record is never passed to `_FREE`. -/
theorem log_printf_frees (L : Layout) (env : Env) (s : EnqueueState)
    (level fuel : Nat) (out : Outcome) (h : log_printf L fuel env s level = some out) :
    (∀ sz p, Event.malloc sz (some p) ∈ out.trace → freeCount p out.trace = 1) ∧
    (∀ p, freeCount p out.trace = allocCount p out.trace) ∧
    (∀ p, allocCount p out.trace ≤ 1) ∧
    freeCount Msgp.stack out.trace = 0 := by
  obtain ⟨_, _, hc⟩ := log_printf_complete_cases L env s level fuel out h
  have hfa : (∀ p, freeCount p out.trace = allocCount p out.trace) ∧
      (∀ p, allocCount p out.trace ≤ 1) ∧ allocCount Msgp.stack out.trace = 0 := by
    rcases hc with ⟨_, ht⟩ | ⟨_, msgp, buffer, len, msgsz, fl, pre, ht, hshape⟩
    · rw [ht]
      refine ⟨?_, ?_, ?_⟩
      · intro p
        rw [freeCount_append, allocCount_append, freeCount_raceTrace]
        simp [freeCount, allocCount]
      · intro p
        rw [allocCount_append, allocCount_raceTrace]
        cases p with
        | stack => simp [allocCount]
        | heap i => by_cases hi : i < out.restarts <;> simp [allocCount, hi]
      · rw [allocCount_append, allocCount_raceTrace]
        simp [allocCount]
    · obtain ⟨_, _, hf, ha, hm⟩ := sendShape_facts _ _ _ hshape
      rw [ht]
      refine ⟨?_, ?_, ?_⟩
      · intro p
        rw [freeCount_sendTrace, allocCount_sendTrace, freeCount_append, allocCount_append,
          freeCount_raceTrace, hf p, ha p, Nat.add_zero]
      · intro p
        rw [allocCount_sendTrace, allocCount_append, allocCount_raceTrace, ha p]
        rcases hm with hm | hm
        · subst hm
          cases p with
          | stack => simp
          | heap i => by_cases hi : i < out.restarts <;> simp [hi]
        · subst hm
          cases p with
          | stack => simp
          | heap i =>
            by_cases hi : i < out.restarts
            · have : ¬ out.restarts = i := by omega
              simp [hi, this]
            · by_cases hj : out.restarts = i <;> simp [hi, hj]
      · rw [allocCount_sendTrace, allocCount_append, allocCount_raceTrace, ha Msgp.stack]
        simp
  obtain ⟨h1, h2, h3⟩ := hfa
  refine ⟨?_, h1, h2, ?_⟩
  · intro sz p hmem
    have hpos := mem_malloc_allocCount p sz out.trace hmem
    have hle := h2 p
    rw [h1 p]
    omega
  · rw [h1 Msgp.stack, h3]

/-- Instance of C10: a call that restarts once and whose delivery then fails
allocated the regions of passes 0 and 1 and released each exactly once. -/
theorem log_printf_frees_witness :
    log_printf exLayout 2 exEnvRaceFail EnqueueState.init 2 = some exOutRaceFail ∧
      freeCount (Msgp.heap 0) exOutRaceFail.trace = 1 ∧
      freeCount (Msgp.heap 1) exOutRaceFail.trace = 1 ∧
      freeCount Msgp.stack exOutRaceFail.trace = 0 :=
  ⟨by decide,
   (log_printf_frees exLayout exEnvRaceFail EnqueueState.init 2 2 exOutRaceFail
      (by decide)).1 35 (Msgp.heap 0) (by decide),
   (log_printf_frees exLayout exEnvRaceFail EnqueueState.init 2 2 exOutRaceFail
      (by decide)).1 35 (Msgp.heap 1) (by decide),
   (log_printf_frees exLayout exEnvRaceFail EnqueueState.init 2 2 exOutRaceFail
      (by decide)).2.2.2⟩

end LogKctl
